import Mathlib

/-!
Shallow embedding of the qiniu storage driver's offset-write composition
engine: the part-manifest planner in `WriteStream`
(registry/storage/driver/qiniu/qiniu.go) and the multipart manifest
encoder `PutParts` / `addDirectFile` / `addCopyFile`
(Godeps/.../kodocli/part_upload.go).

Bytes are modelled as natural numbers (each below 256 in intended use);
`int64` values as `Int` (the quantities involved stay far from 2^63, and
every claim constrains them to small regimes, so wrap-around is not in
play). An `io.Reader` is a byte list together with a read position and a
flag recording whether the dynamic cast to `io.ReadSeeker` succeeds. The
multipart writer is a list of written fields plus a failure budget
modelling the underlying `io.Writer`: `none` means writes always succeed
(the `bytes.Buffer` instantiation used by `PutParts`), `some n` means the
n-th next write attempt fails once (a transient sink failure), after
which writes succeed again.
-/

set_option autoImplicit false

namespace Qiniu

/-- An `io.Reader` value: full contents, current read position, and
whether the value also implements `io.ReadSeeker`. -/
structure Reader where
  data : List Nat
  pos : Nat
  seekable : Bool
deriving DecidableEq, Repr

/-- `kodocli.Part`: the caller-facing part descriptor. `FileName` is
checked first (direct part read from a file), then `R` (direct part read
from a reader), else the part is a copy part given by `Key`, `From`,
`To` (with `To = -1` the open-ended sentinel). -/
structure Part where
  FileName : String := ""
  R : Option Reader := none
  Crc32 : Nat := 0
  CheckCrc : Bool := false
  Key : String := ""
  From : Int := 0
  To : Int := 0
deriving DecidableEq, Repr

/-- `kodocli.part`: one JSON manifest entry (`ty` renders the Go field
`Type`, which serializes as "type"). -/
structure PartJson where
  ty : String
  Crc32 : Nat
  StorageFile : String
  Range : String
deriving DecidableEq, Repr

/-- `kodocli.PutExtra`: caller metadata. Go's map iteration order over
`Params` is modelled as the order of an association list. -/
structure PutExtra where
  Params : List (String × String) := []
  MimeType : String := ""
deriving DecidableEq, Repr

/-- One field of the streaming multipart body: either a text field
(`WriteField`) or a binary file field (`CreateFormFile` + payload). -/
inductive Field where
  | text (name value : String)
  | file (name : String) (payload : List Nat)
deriving DecidableEq, Repr

def Field.name : Field → String
  | .text n _ => n
  | .file n _ => n

def Field.isFile : Field → Bool
  | .text _ _ => false
  | .file _ _ => true

/-- The multipart writer over its underlying sink. `budget = none`:
writes never fail (a `bytes.Buffer` sink); `budget = some n`: the n-th
next write attempt fails once and the sink recovers. -/
structure MWriter where
  fields : List Field
  budget : Option Nat
deriving DecidableEq, Repr

/-- One write attempt against the sink: returns the new writer state and
whether the write succeeded. -/
def mwWrite (w : MWriter) (f : Field) : MWriter × Bool :=
  match w.budget with
  | none => (⟨w.fields ++ [f], none⟩, true)
  | some 0 => (⟨w.fields, none⟩, false)
  | some (n + 1) => (⟨w.fields ++ [f], some n⟩, true)

/-- Budget consumption of a write whose bytes stream in later
(`CreateFormFile` writes the field header; the payload follows). -/
def mwAttempt (w : MWriter) : MWriter × Bool :=
  match w.budget with
  | none => (w, true)
  | some 0 => (⟨w.fields, none⟩, false)
  | some (n + 1) => (⟨w.fields, some n⟩, true)

/-- CRC-32, IEEE polynomial (reflected form, as in Go's `hash/crc32`
with `crc32.IEEE`): per byte, xor into the low bits then eight
shift-and-conditionally-xor rounds with 0xEDB88320. -/
def crc32Byte (crc b : Nat) : Nat :=
  (List.range 8).foldl
    (fun c _ => if c % 2 = 1 then Nat.xor (c / 2) 0xEDB88320 else c / 2)
    (Nat.xor crc (b % 256))

/-- CRC-32 (IEEE) of a byte sequence. -/
def crc32 (data : List Nat) : Nat :=
  Nat.xor (data.foldl crc32Byte 0xFFFFFFFF) 0xFFFFFFFF

/-- `kodocli.addDirectFile`: create the form file field `part-idx`, run
the checksum pass when `checkCrc` is set and no nonzero checksum was
supplied (requiring the reader to be seekable, consuming it from its
current position and rewinding it to the start), then copy the reader's
remaining bytes into the field and append the "direct" manifest entry. -/
def addDirectFile (w : MWriter) (arg : List PartJson) (idx : Nat)
    (checkCrc : Bool) (crc32v : Nat) (r : Reader) :
    Except String (MWriter × List PartJson × Reader) :=
  let fieldName := "part-" ++ toString idx
  let wa := mwAttempt w
  let w1 := wa.1
  if !wa.2 then
    .error "CreateFormFile failed"
  else if checkCrc && crc32v == 0 then
    if !r.seekable then
      .error "r should be io.ReadSeeker if generate crc32 in sdk"
    else
      let crcNew := crc32 (r.data.drop r.pos)
      let r1 : Reader := ⟨r.data, 0, r.seekable⟩
      let payload := r1.data.drop r1.pos
      .ok (⟨w1.fields ++ [.file fieldName payload], w1.budget⟩,
        arg ++ [⟨"direct", crcNew, "", ""⟩],
        ⟨r1.data, r1.data.length, r1.seekable⟩)
  else
    let payload := r.data.drop r.pos
    .ok (⟨w1.fields ++ [.file fieldName payload], w1.budget⟩,
      arg ++ [⟨"direct", crc32v, "", ""⟩],
      ⟨r.data, r.data.length, r.seekable⟩)

/-- `kodocli.addCopyFile`: validate the range (`to` must be the -1
sentinel or strictly greater than `from`), then append the "copy"
manifest entry with the rendered range string. -/
def addCopyFile (arg : List PartJson) (key : String) (f t : Int) :
    Except String (List PartJson) :=
  if t = -1 ∨ f < t then
    .ok (arg ++ [⟨"copy", 0, key, toString f ++ "-" ++ toString t⟩])
  else
    .error "invalid from&to argument"

/-- `kodocli.writeMultipartOfPart`, params loop: write each metadata
field, stopping at the first sink failure. -/
def writeParams (w : MWriter) : List (String × String) → MWriter × Option String
  | [] => (w, none)
  | (k, v) :: rest =>
    let m := mwWrite w (.text k v)
    if m.2 then writeParams m.1 rest else (m.1, some "write field failed")

/-- `kodocli.writeMultipartOfPart`: write the token field, then the key
field when `hasKey`, then the caller's metadata fields, returning the
first sink error if any. -/
def writeMultipartOfPart (w : MWriter) (uptoken key : String) (hasKey : Bool)
    (extra : PutExtra) : MWriter × Option String :=
  let m1 := mwWrite w (.text "token" uptoken)
  if !m1.2 then (m1.1, some "write token failed")
  else if hasKey then
    let m2 := mwWrite m1.1 (.text "key" key)
    if !m2.2 then (m2.1, some "write key failed")
    else writeParams m2.1 extra.Params
  else writeParams m1.1 extra.Params

/-- The part loop of `kodocli.PutParts`: for each part, in order, either
open the named file and encode it directly, encode the reader directly,
or validate and record a copy entry; the field name ordinal `i` counts
every part, copy parts included. `fs` models the filesystem consulted by
`os.Open`. -/
def processParts (fs : String → Option (List Nat)) (w : MWriter)
    (arg : List PartJson) (i : Nat) :
    List Part → Except String (MWriter × List PartJson)
  | [] => .ok (w, arg)
  | p :: rest =>
    if p.FileName ≠ "" then
      match fs p.FileName with
      | none => .error "os.Open failed"
      | some content =>
        match addDirectFile w arg i p.CheckCrc p.Crc32 ⟨content, 0, true⟩ with
        | .error e => .error e
        | .ok (w1, arg1, _) => processParts fs w1 arg1 (i + 1) rest
    else
      match p.R with
      | some r =>
        match addDirectFile w arg i p.CheckCrc p.Crc32 r with
        | .error e => .error e
        | .ok (w1, arg1, _) => processParts fs w1 arg1 (i + 1) rest
      | none =>
        match addCopyFile arg p.Key p.From p.To with
        | .error e => .error e
        | .ok arg1 => processParts fs w arg1 (i + 1) rest

/-- JSON string literal (metadata strings here need no escaping). -/
def jsonStr (s : String) : String := "\"" ++ s ++ "\""

/-- `encoding/json` rendering of one manifest entry, fields in Go
declaration order. -/
def renderPart (p : PartJson) : String :=
  "\x7b\"type\":" ++ jsonStr p.ty ++ ",\"crc32\":" ++ toString p.Crc32 ++
    ",\"storageFile\":" ++ jsonStr p.StorageFile ++ ",\"range\":" ++
    jsonStr p.Range ++ "\x7d"

/-- `encoding/json` rendering of the entry list; a nil slice (no entry
was ever appended) marshals as `null`. -/
def renderParts (ps : List PartJson) : String :=
  match ps with
  | [] => "null"
  | p :: rest =>
    "[" ++ (rest.foldl (fun acc q => acc ++ "," ++ renderPart q) (renderPart p)) ++ "]"

/-- `encoding/json` rendering of `kodocli.partArg`. -/
def renderArg (mimeType : String) (ps : List PartJson) : String :=
  "\x7b\"mimeType\":" ++ jsonStr mimeType ++ ",\"parts\":" ++ renderParts ps ++ "\x7d"

/-- The POST request `PutParts` finally issues: its multipart body. -/
structure Request where
  fields : List Field
deriving DecidableEq, Repr

/-- `kodocli.PutParts`: write the leading fields (the returned error is
bound but never inspected, exactly as in the source), encode every part,
marshal the manifest, write the final "parts" field (whose error IS
checked), and only then issue the POST. An `Except.error` result means
no request reached the backend. -/
def PutParts (fs : String → Option (List Nat)) (w0 : MWriter)
    (uptoken key : String) (hasKey : Bool) (parts : List Part)
    (extraOpt : Option PutExtra) : Except String Request :=
  let extra := extraOpt.getD {}
  -- the source binds the error of `writeMultipartOfPart` but never
  -- inspects it: only the writer state (`.1`) is carried forward
  let w1 := (writeMultipartOfPart w0 uptoken key hasKey extra).1
  match processParts fs w1 [] 0 parts with
  | .error e => .error e
  | .ok (w2, argParts) =>
    let argB := renderArg extra.MimeType argParts
    let m := mwWrite w2 (.text "parts" argB)
    if !m.2 then .error "WriteField parts failed"
    else .ok ⟨m.1.fields⟩

/-- Whether an `Except` is an error. -/
def isErr {α : Type} : Except String α → Bool
  | .error _ => true
  | .ok _ => false

/-! ## The offset planner of `driver.WriteStream` (qiniu.go) -/

/-- A direct part as `WriteStream` builds it: reader over the staged (or
zero-fill) bytes, positioned at the start, seekable (a temp file handle
or a `bytes.Reader`). -/
def directPart (staged : List Nat) : Part :=
  { R := some ⟨staged, 0, true⟩ }

/-- A copy part as `WriteStream` builds it. -/
def copyPart (key : String) (f t : Int) : Part :=
  { Key := key, From := f, To := t }

/-- The planner of `WriteStream` (the `writeWholeFile == false` branch,
qiniu.go lines 245-318), taken verbatim: four cases selected in source
order by comparing `offset` with the probed size. `staged` is the
content of the temp file, so `written = staged.length`. -/
def planParts (path : String) (size offset : Int) (staged : List Nat) : List Part :=
  if offset = 0 then
    [directPart staged] ++
      (if (staged.length : Int) < size then
        [copyPart path (staged.length : Int) (-1)] else [])
  else if offset = size then
    [copyPart path 0 (-1), directPart staged]
  else if offset < size then
    [copyPart path 0 offset, directPart staged] ++
      (if (staged.length : Int) + offset < size then
        [copyPart path ((staged.length : Int) + offset) (-1)] else [])
  else if size < offset then
    [copyPart path 0 (-1), directPart (List.replicate (offset - size).toNat 0),
      directPart staged]
  else []

/-- Contributed byte length of one part, copy ranges resolved against
the concrete existing size, direct parts by their declared length. -/
def contribLen (size : Int) (p : Part) : Int :=
  match p.R with
  | some r => (r.data.length : Int)
  | none => if p.To = -1 then size - p.From else p.To - p.From

/-- Total contributed length of a manifest, resolved against `size`. -/
def sumContrib (size : Int) (ps : List Part) : Int :=
  (ps.map (contribLen size)).sum

/-! ## The `WriteStream` facade (error-path accounting) -/

/-- Outcome of the `Stat` size probe. -/
inductive StatRes where
  | ok (size : Int)
  | notFound
  | err (e : String)
deriving DecidableEq, Repr

/-- Environment of one `WriteStream` call: the outcome of every
effectful stage. `copyRes` is the result of `io.Copy` into the temp
file — on success, the staged bytes. -/
structure WSEnv where
  statRes : StatRes
  tmpErr : Option String
  copyRes : Except String (List Nat)
  seekErr : Option String
  netErr : Option String
  putFileErr : Option String

/-- Staging steps shared by both branches: temp-file creation,
`io.Copy` of the caller's stream, seek-reset. -/
def stagedSteps (env : WSEnv) : Except String (List Nat) :=
  match env.tmpErr with
  | some e => .error e
  | none =>
    match env.copyRes with
    | .error e => .error e
    | .ok staged =>
      match env.seekErr with
      | some e => .error e
      | none => .ok staged

/-- `driver.WriteStream`: probe, stage, then either plan + `PutParts`
(object exists) or whole-object `PutFile` (object absent), returning the
staged byte count on success and (0, error) on every failure path. -/
def WriteStream (env : WSEnv) (path uptoken : String) (offset : Int) :
    Int × Option String :=
  match env.statRes with
  | .err e => (0, some e)
  | .notFound =>
    match stagedSteps env with
    | .error e => (0, some e)
    | .ok staged =>
      match env.putFileErr with
      | some e => (0, some e)
      | none => ((staged.length : Int), none)
  | .ok size =>
    match stagedSteps env with
    | .error e => (0, some e)
    | .ok staged =>
      match PutParts (fun _ => none) ⟨[], none⟩ uptoken path true
          (planParts path size offset staged) none with
      | .error e => (0, some e)
      | .ok _ =>
        match env.netErr with
        | some e => (0, some e)
        | none => ((staged.length : Int), none)

/-! ## Spec-side helpers (classification of parts, for refinement
statements about the encoder's field layout) -/

/-- The manifest type tag a part ends up with: "copy" exactly when
neither a file name nor a reader is supplied. -/
def partTag (p : Part) : String :=
  if p.FileName = "" ∧ p.R = none then "copy" else "direct"

/-- Indices (within the whole manifest, starting at `i`) of the parts
that are direct parts. -/
def directIndices : Nat → List Part → List Nat
  | _, [] => []
  | i, p :: rest =>
    if p.FileName = "" ∧ p.R = none then directIndices (i + 1) rest
    else i :: directIndices (i + 1) rest

/-! ## Small evaluation lemmas -/

theorem contribLen_direct (size : Int) (staged : List Nat) :
    contribLen size (directPart staged) = (staged.length : Int) := rfl

theorem contribLen_copy (size : Int) (key : String) (f t : Int) :
    contribLen size (copyPart key f t) = if t = -1 then size - f else t - f := rfl

/-! ## Claims about the offset planner -/

/-- C3: for a write against an existing object of size `size` at offset
0 with staged bytes `staged`, the planner produces `[Direct(staged)]`,
followed by `Copy(key, from = staged.length, to = -1)` exactly when
`staged.length < size`. -/
theorem planParts_offset_zero (path : String) (size : Int) (staged : List Nat) :
    planParts path size 0 staged =
      [directPart staged] ++
        (if (staged.length : Int) < size then
          [copyPart path (staged.length : Int) (-1)] else []) := by
  unfold planParts
  rw [if_pos rfl]

/-- C1: for a write with `0 < offset < size`, the planner produces
`[Copy(0, offset), Direct(staged)]`, followed by
`Copy(offset + staged.length, -1)` exactly when
`offset + staged.length < size`. -/
theorem planParts_middle_overwrite (path : String) (size offset : Int)
    (staged : List Nat) (h1 : 0 < offset) (h2 : offset < size) :
    planParts path size offset staged =
      [copyPart path 0 offset, directPart staged] ++
        (if (staged.length : Int) + offset < size then
          [copyPart path ((staged.length : Int) + offset) (-1)] else []) := by
  unfold planParts
  rw [if_neg (by omega), if_neg (by omega), if_pos h2]

theorem planParts_middle_overwrite_witness :
    (0 : Int) < 30 ∧ (30 : Int) < 100 ∧
      planParts "k" 100 30 (List.replicate 20 7) =
        [copyPart "k" 0 30, directPart (List.replicate 20 7), copyPart "k" 50 (-1)] :=
  ⟨by decide, by decide, by
    rw [planParts_middle_overwrite "k" 100 30 (List.replicate 20 7)
      (by decide) (by decide)]
    decide⟩

/-- C2: for a write with `size < offset` (and a nonnegative probed
size), the planner produces exactly
`[Copy(0, -1), Direct(offset - size zero bytes), Direct(staged)]`. -/
theorem planParts_past_end (path : String) (size offset : Int)
    (staged : List Nat) (h0 : 0 ≤ size) (h : size < offset) :
    planParts path size offset staged =
      [copyPart path 0 (-1),
        directPart (List.replicate (offset - size).toNat 0),
        directPart staged] := by
  unfold planParts
  rw [if_neg (by omega), if_neg (by omega), if_neg (by omega), if_pos h]

theorem planParts_past_end_witness :
    (0 : Int) ≤ 100 ∧ (100 : Int) < 150 ∧
      planParts "k" 100 150 (List.replicate 5 7) =
        [copyPart "k" 0 (-1), directPart (List.replicate 50 0),
          directPart (List.replicate 5 7)] :=
  ⟨by decide, by decide, by
    rw [planParts_past_end "k" 100 150 (List.replicate 5 7) (by decide) (by decide)]
    decide⟩

/-- C4 (as stated) is false: at existingSize 100, offset 0, newLength
40 the manifest's contributed lengths sum to 100 (the surviving tail
replaces, it does not add), not `max 100 0 + 40 = 140`. -/
theorem sumContrib_claim_cex :
    sumContrib 100 (planParts "k" 100 0 (List.replicate 40 7)) = 100 ∧
      ¬ sumContrib 100 (planParts "k" 100 0 (List.replicate 40 7)) =
          max (100 : Int) 0 + 40 := by
  decide

/-- C4 (amended): for nonnegative probed size and offset, the sum of
the manifest's contributed lengths (copy ranges resolved against the
existing size, direct parts by their declared length) equals
`max size (offset + newLength)` — the size of the object the compose
produces. -/
theorem planParts_size_conservation (path : String) (size offset : Int)
    (staged : List Nat) (h0 : 0 ≤ size) (h1 : 0 ≤ offset) :
    sumContrib size (planParts path size offset staged) =
      max size (offset + (staged.length : Int)) := by
  unfold planParts
  by_cases hz : offset = 0
  · subst hz
    rw [if_pos rfl]
    by_cases ht : (staged.length : Int) < size
    · rw [if_pos ht]
      simp [sumContrib, contribLen_direct, contribLen_copy]
      omega
    · rw [if_neg ht]
      simp [sumContrib, contribLen_direct]
      omega
  · rw [if_neg hz]
    by_cases he : offset = size
    · rw [if_pos he]
      simp [sumContrib, contribLen_direct, contribLen_copy]
      omega
    · rw [if_neg he]
      by_cases hlt : offset < size
      · rw [if_pos hlt]
        by_cases ht : (staged.length : Int) + offset < size
        · rw [if_pos ht]
          simp [sumContrib, contribLen_direct, contribLen_copy]
          split <;> omega
        · rw [if_neg ht]
          simp [sumContrib, contribLen_direct, contribLen_copy]
          split <;> omega
      · rw [if_neg hlt, if_pos (by omega)]
        simp [sumContrib, contribLen_direct, contribLen_copy]
        omega

/-! ## Claims about the manifest transport encoder -/

/-- A part whose copy range is invalid (end neither the sentinel nor
greater than the start) makes the part loop fail, wherever it sits. -/
theorem processParts_err_of_bad_copy (fs : String → Option (List Nat))
    (p : Part) (hf : p.FileName = "") (hr : p.R = none)
    (ht : p.To ≠ -1) (hft : ¬ p.From < p.To) :
    ∀ (parts : List Part) (w : MWriter) (arg : List PartJson) (i : Nat),
      p ∈ parts → isErr (processParts fs w arg i parts) = true := by
  intro parts
  induction parts with
  | nil =>
    intro w arg i h
    cases h
  | cons q rest ih =>
    intro w arg i hmem
    rcases List.mem_cons.mp hmem with rfl | hmem'
    · unfold processParts
      rw [if_neg (by simp [hf]), hr]
      unfold addCopyFile
      rw [if_neg (by tauto)]
      rfl
    · unfold processParts
      split
      · split
        · rfl
        · split
          · rfl
          · exact ih _ _ _ hmem'
      · split
        · split
          · rfl
          · exact ih _ _ _ hmem'
        · split
          · rfl
          · exact ih _ _ _ hmem'

/-- C5: a Copy descriptor whose range end is not the open-ended
sentinel -1 and not strictly greater than its range start is rejected
by `addCopyFile` with the invalid-manifest error, and a `PutParts` call
whose part list contains such a descriptor returns an error without
ever building the POST request. -/
theorem putParts_rejects_invalid_copy (fs : String → Option (List Nat))
    (w : MWriter) (tok key : String) (hasKey : Bool)
    (extraOpt : Option PutExtra) (parts : List Part) (p : Part)
    (arg : List PartJson) (hmem : p ∈ parts) (hf : p.FileName = "")
    (hr : p.R = none) (ht : p.To ≠ -1) (hft : ¬ p.From < p.To) :
    addCopyFile arg p.Key p.From p.To = .error "invalid from&to argument" ∧
      isErr (PutParts fs w tok key hasKey parts extraOpt) = true := by
  constructor
  · unfold addCopyFile
    rw [if_neg (by tauto)]
  · have h := processParts_err_of_bad_copy fs p hf hr ht hft parts
      (writeMultipartOfPart w tok key hasKey (extraOpt.getD {})).1 [] 0 hmem
    simp only [PutParts]
    split
    · rfl
    · rename_i w2 argParts heq
      rw [heq] at h
      simp [isErr] at h

theorem putParts_rejects_invalid_copy_witness :
    ({ Key := "s", From := 10, To := 10 } : Part) ∈
        [({ Key := "s", From := 10, To := 10 } : Part)] ∧
      addCopyFile [] "s" 10 10 = .error "invalid from&to argument" ∧
      isErr (PutParts (fun _ => none) ⟨[], none⟩ "t" "k" true
        [{ Key := "s", From := 10, To := 10 }] none) = true := by
  refine ⟨by decide, ?_⟩
  have h := putParts_rejects_invalid_copy (fun _ => none) ⟨[], none⟩ "t" "k" true
    none [{ Key := "s", From := 10, To := 10 }] { Key := "s", From := 10, To := 10 }
    [] (by decide) rfl rfl (by decide) (by decide)
  simpa using h

/-- C6: for a direct part that requests integrity checking and carries
no precomputed checksum (supplied value 0), over a source positioned at
its start and a writer whose sink does not fail: if the source is not
seekable the encoder fails with the source-not-seekable error; if it is
seekable, the manifest entry records the CRC-32 (IEEE) of the full
payload and the bytes copied into the `part-idx` field are exactly that
same full payload (the source having been rewound to position 0 before
the upload copy). -/
theorem addDirectFile_crc_contract (w : MWriter) (arg : List PartJson)
    (idx : Nat) (r : Reader) (hb : w.budget = none) (hp : r.pos = 0) :
    (r.seekable = false →
      addDirectFile w arg idx true 0 r =
        .error "r should be io.ReadSeeker if generate crc32 in sdk") ∧
    (r.seekable = true →
      addDirectFile w arg idx true 0 r =
        .ok (⟨w.fields ++ [.file ("part-" ++ toString idx) r.data], none⟩,
          arg ++ [⟨"direct", crc32 r.data, "", ""⟩],
          ⟨r.data, r.data.length, true⟩)) := by
  obtain ⟨fl, b⟩ := w
  obtain ⟨data, pos, sk⟩ := r
  simp only at hb hp
  subst hb hp
  constructor <;> intro hs <;> subst hs <;>
    simp [addDirectFile, mwAttempt, crc32]

theorem addDirectFile_crc_contract_witness :
    ((⟨[], none⟩ : MWriter).budget = none ∧ (0 : Nat) = 0) ∧
      addDirectFile ⟨[], none⟩ [] 0 true 0 ⟨[1, 2, 3], 0, false⟩ =
        .error "r should be io.ReadSeeker if generate crc32 in sdk" ∧
      addDirectFile ⟨[], none⟩ [] 0 true 0 ⟨[1, 2, 3], 0, true⟩ =
        .ok (⟨[.file "part-0" [1, 2, 3]], none⟩,
          [⟨"direct", crc32 [1, 2, 3], "", ""⟩], ⟨[1, 2, 3], 3, true⟩) :=
  ⟨⟨rfl, rfl⟩,
    (addDirectFile_crc_contract ⟨[], none⟩ [] 0 ⟨[1, 2, 3], 0, false⟩ rfl rfl).1 rfl,
    (addDirectFile_crc_contract ⟨[], none⟩ [] 0 ⟨[1, 2, 3], 0, true⟩ rfl rfl).2 rfl⟩

/-- C9: the checksum pass runs only when the supplied checksum is
exactly 0. With `CheckCrc` set and a nonzero supplied value, the value
is recorded unchanged and the source need not be seekable (it is read
once, from its current position, for the upload only); with a supplied
value of 0 the pass always runs, so a non-seekable source is rejected —
a caller cannot smuggle in a precomputed checksum equal to 0. -/
theorem addDirectFile_supplied_crc (w : MWriter) (arg : List PartJson)
    (idx : Nat) (r : Reader) (crc32v : Nat) (hb : w.budget = none) :
    (crc32v ≠ 0 →
      addDirectFile w arg idx true crc32v r =
        .ok (⟨w.fields ++ [.file ("part-" ++ toString idx) (r.data.drop r.pos)], none⟩,
          arg ++ [⟨"direct", crc32v, "", ""⟩],
          ⟨r.data, r.data.length, r.seekable⟩)) ∧
    (crc32v = 0 → r.seekable = false →
      addDirectFile w arg idx true crc32v r =
        .error "r should be io.ReadSeeker if generate crc32 in sdk") := by
  obtain ⟨fl, b⟩ := w
  obtain ⟨data, pos, sk⟩ := r
  simp only at hb
  subst hb
  constructor
  · intro hnz
    simp [addDirectFile, mwAttempt, Nat.beq_eq_true_eq, hnz]
  · intro hz hs
    subst hz hs
    simp [addDirectFile, mwAttempt]

theorem addDirectFile_supplied_crc_witness :
    ((⟨[], none⟩ : MWriter).budget = none ∧ (5 : Nat) ≠ 0) ∧
      addDirectFile ⟨[], none⟩ [] 0 true 5 ⟨[9, 9], 0, false⟩ =
        .ok (⟨[.file "part-0" [9, 9]], none⟩,
          [⟨"direct", 5, "", ""⟩], ⟨[9, 9], 2, false⟩) ∧
      addDirectFile ⟨[], none⟩ [] 0 true 0 ⟨[9, 9], 0, false⟩ =
        .error "r should be io.ReadSeeker if generate crc32 in sdk" :=
  ⟨⟨rfl, by decide⟩,
    by
      have h := (addDirectFile_supplied_crc ⟨[], none⟩ [] 0 ⟨[9, 9], 0, false⟩ 5
        rfl).1 (by decide)
      simpa using h,
    (addDirectFile_supplied_crc ⟨[], none⟩ [] 0 ⟨[9, 9], 0, false⟩ 0 rfl).2 rfl rfl⟩

/-- Shape of a successful `addDirectFile`: with a non-failing sink it
appends exactly one file field named by the part ordinal and one
"direct" manifest entry. -/
theorem addDirectFile_ok_shape (w : MWriter) (arg : List PartJson) (idx : Nat)
    (cc : Bool) (cv : Nat) (r : Reader) (w1 : MWriter) (arg1 : List PartJson)
    (r1 : Reader) (hb : w.budget = none)
    (h : addDirectFile w arg idx cc cv r = .ok (w1, arg1, r1)) :
    w1.budget = none ∧
      (∃ payload, w1.fields = w.fields ++ [.file ("part-" ++ toString idx) payload]) ∧
      ∃ crcv, arg1 = arg ++ [⟨"direct", crcv, "", ""⟩] := by
  obtain ⟨fl, b⟩ := w
  simp only at hb
  subst hb
  simp only [addDirectFile, mwAttempt] at h
  split at h
  · cases h
  · split at h
    · split at h
      · cases h
      · simp only [Except.ok.injEq, Prod.mk.injEq] at h
        obtain ⟨h1, h2, h3⟩ := h
        subst h1 h2 h3
        exact ⟨rfl, ⟨_, rfl⟩, _, rfl⟩
    · simp only [Except.ok.injEq, Prod.mk.injEq] at h
      obtain ⟨h1, h2, h3⟩ := h
      subst h1 h2 h3
      exact ⟨rfl, ⟨_, rfl⟩, _, rfl⟩

theorem planParts_size_conservation_witness :
    (0 : Int) ≤ 100 ∧ (0 : Int) ≤ 30 ∧
      sumContrib 100 (planParts "k" 100 30 (List.replicate 20 7)) =
        max (100 : Int) (30 + 20) :=
  ⟨by decide, by decide, by
    have h := planParts_size_conservation "k" 100 30 (List.replicate 20 7)
      (by decide) (by decide)
    simpa using h⟩

theorem addCopyFile_ok_shape (arg : List PartJson) (key : String) (f t : Int)
    (arg1 : List PartJson)
    (h : addCopyFile arg key f t = .ok arg1) :
    arg1 = arg ++ [⟨"copy", 0, key, toString f ++ "-" ++ toString t⟩] := by
  unfold addCopyFile at h
  split at h
  · injection h with h'
    exact h'.symm
  · cases h

theorem directIndices_cons (i : Nat) (p : Part) (rest : List Part) :
    directIndices i (p :: rest) =
      if p.FileName = "" ∧ p.R = none then directIndices (i + 1) rest
      else i :: directIndices (i + 1) rest := rfl

theorem processParts_ok_shape (fs : String → Option (List Nat)) :
    ∀ (parts : List Part) (w : MWriter) (arg : List PartJson) (i : Nat)
      (w2 : MWriter) (arg2 : List PartJson),
      w.budget = none →
      processParts fs w arg i parts = .ok (w2, arg2) →
      w2.budget = none ∧
        (∃ mids : List Field,
          w2.fields = w.fields ++ mids ∧
          mids.map Field.name =
            (directIndices i parts).map (fun j => "part-" ++ toString j) ∧
          ∀ f ∈ mids, f.isFile = true) ∧
        arg2.map PartJson.ty = arg.map PartJson.ty ++ parts.map partTag := by
  intro parts
  induction parts with
  | nil =>
    intro w arg i w2 arg2 hb h
    simp only [processParts, Except.ok.injEq, Prod.mk.injEq] at h
    obtain ⟨h1, h2⟩ := h
    subst h1 h2
    exact ⟨hb, ⟨[], by simp, by simp [directIndices], by simp⟩, by simp [directIndices]⟩
  | cons p rest ih =>
    intro w arg i w2 arg2 hb h
    simp only [processParts] at h
    split at h
    · -- FileName ≠ "" : direct from file
      rename_i hfn
      split at h
      · cases h
      · rename_i content hfs
        split at h
        · cases h
        · rename_i wmid argmid rmid hadd
          obtain ⟨hb1, ⟨pay, hfld⟩, crcv, harg⟩ :=
            addDirectFile_ok_shape w arg i p.CheckCrc p.Crc32 ⟨content, 0, true⟩
              wmid argmid rmid hb hadd
          obtain ⟨hb2, ⟨mids, hf2, hn2, hff2⟩, ha2⟩ := ih wmid argmid (i + 1) w2 arg2 hb1 h
          refine ⟨hb2, ⟨Field.file ("part-" ++ toString i) pay :: mids, ?_, ?_, ?_⟩, ?_⟩
          · rw [hf2, hfld]; simp
          · rw [directIndices_cons, if_neg (by intro hc; exact hfn hc.1)]
            simp [Field.name, hn2]
          · intro f hf
            rcases List.mem_cons.mp hf with rfl | hf'
            · rfl
            · exact hff2 f hf'
          · rw [ha2, harg]
            have : partTag p = "direct" := by
              unfold partTag
              rw [if_neg (by intro hc; exact hfn hc.1)]
            simp [this, PartJson.ty]
    · -- FileName = ""
      rename_i hfn
      split at h
      · -- R = some r
        rename_i r hR
        split at h
        · cases h
        · rename_i wmid argmid rmid hadd
          obtain ⟨hb1, ⟨pay, hfld⟩, crcv, harg⟩ :=
            addDirectFile_ok_shape w arg i p.CheckCrc p.Crc32 r wmid argmid rmid hb hadd
          obtain ⟨hb2, ⟨mids, hf2, hn2, hff2⟩, ha2⟩ := ih wmid argmid (i + 1) w2 arg2 hb1 h
          refine ⟨hb2, ⟨Field.file ("part-" ++ toString i) pay :: mids, ?_, ?_, ?_⟩, ?_⟩
          · rw [hf2, hfld]; simp
          · rw [directIndices_cons, if_neg (by intro hc; rw [hR] at hc; cases hc.2)]
            simp [Field.name, hn2]
          · intro f hf
            rcases List.mem_cons.mp hf with rfl | hf'
            · rfl
            · exact hff2 f hf'
          · rw [ha2, harg]
            have : partTag p = "direct" := by
              unfold partTag
              rw [if_neg (by intro hc; rw [hR] at hc; cases hc.2)]
            simp [this, PartJson.ty]
      · -- copy part
        rename_i hR
        split at h
        · cases h
        · rename_i argmid hadd
          have harg := addCopyFile_ok_shape arg p.Key p.From p.To argmid hadd
          obtain ⟨hb2, ⟨mids, hf2, hn2, hff2⟩, ha2⟩ := ih w argmid (i + 1) w2 arg2 hb h
          refine ⟨hb2, ⟨mids, hf2, ?_, hff2⟩, ?_⟩
          · rw [directIndices_cons, if_pos ⟨by simpa using hfn, hR⟩]
            exact hn2
          · rw [ha2, harg]
            have : partTag p = "copy" := by
              unfold partTag
              rw [if_pos ⟨by simpa using hfn, hR⟩]
            simp [this, PartJson.ty]
theorem writeParams_none (ps : List (String × String)) :
    ∀ (fl : List Field),
      writeParams ⟨fl, none⟩ ps =
        (⟨fl ++ ps.map (fun kv => Field.text kv.1 kv.2), none⟩, none) := by
  induction ps with
  | nil => intro fl; simp [writeParams]
  | cons kv rest ih =>
    intro fl
    obtain ⟨k, v⟩ := kv
    simp [writeParams, mwWrite, ih]

theorem writeMultipartOfPart_none (fl : List Field) (tok key : String)
    (hasKey : Bool) (extra : PutExtra) :
    writeMultipartOfPart ⟨fl, none⟩ tok key hasKey extra =
      (⟨fl ++ [Field.text "token" tok] ++
          (if hasKey then [Field.text "key" key] else []) ++
          extra.Params.map (fun kv => Field.text kv.1 kv.2), none⟩, none) := by
  cases hasKey <;>
    simp [writeMultipartOfPart, mwWrite, writeParams_none, List.append_assoc]

/-- C7 (amended): for every successfully encoded request (over the
never-failing sink the source instantiates), the body is: the token
field, then the key field when a key is given, then the caller's
metadata fields, then one binary field per Direct part — named
"part-i" where i is the part's index in the WHOLE manifest (copy parts
included), in increasing but not necessarily consecutive order — and
finally a single "parts" field holding the JSON manifest, whose
descriptor tags match the parts' kinds in manifest order. -/
theorem putParts_field_order (fs : String → Option (List Nat)) (tok key : String)
    (hasKey : Bool) (extraOpt : Option PutExtra) (parts : List Part) (req : Request)
    (h : PutParts fs ⟨[], none⟩ tok key hasKey parts extraOpt = .ok req) :
    ∃ mids argParts,
      req.fields =
        [Field.text "token" tok] ++ (if hasKey then [Field.text "key" key] else []) ++
          (extraOpt.getD {}).Params.map (fun kv => Field.text kv.1 kv.2) ++ mids ++
          [Field.text "parts" (renderArg (extraOpt.getD {}).MimeType argParts)] ∧
        mids.map Field.name =
          (directIndices 0 parts).map (fun j => "part-" ++ toString j) ∧
        (∀ f ∈ mids, f.isFile = true) ∧
        argParts.map PartJson.ty = parts.map partTag := by
  simp only [PutParts, writeMultipartOfPart_none] at h
  split at h
  · cases h
  · rename_i w2 argParts heq
    obtain ⟨hb2, ⟨mids, hf2, hn2, hff2⟩, ha2⟩ :=
      processParts_ok_shape fs parts _ [] 0 w2 argParts rfl heq
    obtain ⟨w2f, w2b⟩ := w2
    simp only at hb2 hf2
    subst hb2
    simp only [mwWrite] at h
    simp only [Bool.not_true, Bool.false_eq_true, if_false] at h
    injection h with h'
    refine ⟨mids, argParts, ?_, hn2, hff2, by simpa using ha2⟩
    rw [← h']
    simp only [hf2]
    simp [List.append_assoc]
def cexParts : List Part :=
  [{ Key := "src", From := 0, To := -1 }, { R := some ⟨[7], 0, true⟩ }]

/-- C7 (as stated) is false: for the manifest [Copy, Direct] the single
Direct part's binary field is named "part-1" (its index in the whole
manifest), and no field "part-0" exists — the Direct fields are not
named part-0, part-1, ... in consecutive sequence. -/
theorem putParts_naming_cex :
    (PutParts (fun _ => none) ⟨[], none⟩ "t" "k" true cexParts none).map
        (fun req => req.fields.map Field.name) =
      .ok ["token", "key", "part-1", "parts"] ∧
      (PutParts (fun _ => none) ⟨[], none⟩ "t" "k" true cexParts none).map
          (fun req => (req.fields.map Field.name).contains "part-0") =
        .ok false := ⟨rfl, rfl⟩

def wParts : List Part := [{ R := some ⟨[5], 0, true⟩ }]

def wReq : Request :=
  ⟨[.text "token" "t", .text "key" "k", .file "part-0" [5],
    .text "parts" (renderArg "" [⟨"direct", 0, "", ""⟩])]⟩

theorem putParts_field_order_witness :
    PutParts (fun _ => none) ⟨[], none⟩ "t" "k" true wParts none = .ok wReq ∧
      ∃ mids argParts,
        wReq.fields =
          [Field.text "token" "t"] ++ (if true then [Field.text "key" "k"] else []) ++
            ((none : Option PutExtra).getD {}).Params.map
              (fun kv => Field.text kv.1 kv.2) ++ mids ++
            [Field.text "parts"
              (renderArg ((none : Option PutExtra).getD {}).MimeType argParts)] ∧
          mids.map Field.name =
            (directIndices 0 wParts).map (fun j => "part-" ++ toString j) ∧
          (∀ f ∈ mids, f.isFile = true) ∧
          argParts.map PartJson.ty = wParts.map partTag :=
  ⟨rfl, putParts_field_order (fun _ => none) "t" "k" true none wParts wReq rfl⟩

/-- C8: when writing the leading token field fails (a sink that fails
its first write) but every part encodes without error, `PutParts` does
not return the field-writing error — `writeMultipartOfPart`'s error is
bound and never inspected — and still issues the POST request. -/
theorem putParts_ignores_header_write_error (fs : String → Option (List Nat))
    (tok key : String) (hasKey : Bool) (extraOpt : Option PutExtra)
    (parts : List Part)
    (h : isErr (processParts fs
      (writeMultipartOfPart ⟨[], some 0⟩ tok key hasKey (extraOpt.getD {})).1
      [] 0 parts) = false) :
    (writeMultipartOfPart ⟨[], some 0⟩ tok key hasKey (extraOpt.getD {})).2 =
        some "write token failed" ∧
      isErr (PutParts fs ⟨[], some 0⟩ tok key hasKey parts extraOpt) = false := by
  constructor
  · rfl
  · simp only [PutParts]
    split
    · rename_i e heq
      rw [heq] at h
      simp [isErr] at h
    · rename_i w2 argParts heq
      have hb1 : ((writeMultipartOfPart ⟨[], some 0⟩ tok key hasKey
          (extraOpt.getD {})).1).budget = none := rfl
      obtain ⟨hb2, _, _⟩ := processParts_ok_shape fs parts _ [] 0 w2 argParts hb1 heq
      obtain ⟨w2f, w2b⟩ := w2
      simp only at hb2
      subst hb2
      simp [mwWrite, isErr]

theorem putParts_ignores_header_write_error_witness :
    isErr (processParts (fun _ => none)
        (writeMultipartOfPart ⟨[], some 0⟩ "t" "k" true
          ((none : Option PutExtra).getD {})).1 [] 0 []) = false ∧
      (writeMultipartOfPart ⟨[], some 0⟩ "t" "k" true
          ((none : Option PutExtra).getD {})).2 = some "write token failed" ∧
      isErr (PutParts (fun _ => none) ⟨[], some 0⟩ "t" "k" true [] none) = false :=
  ⟨rfl, putParts_ignores_header_write_error (fun _ => none) "t" "k" true none [] rfl⟩

/-- Every `WriteStream` outcome either carries no error or reports a
zero byte count. -/
theorem writeStream_cases (env : WSEnv) (path uptoken : String) (offset : Int) :
    (WriteStream env path uptoken offset).2 = none ∨
      (WriteStream env path uptoken offset).1 = 0 := by
  unfold WriteStream
  repeat' split
  all_goals simp

/-- C10: whenever `WriteStream` returns a non-nil error — from the
size probe, staging, copying, seek-reset, compose upload or whole-file
put — the returned byte count is exactly 0; equivalently a nonzero
count comes only with a nil error. -/
theorem writeStream_error_returns_zero (env : WSEnv) (path uptoken : String)
    (offset : Int)
    (h : (WriteStream env path uptoken offset).2.isSome = true) :
    (WriteStream env path uptoken offset).1 = 0 := by
  rcases writeStream_cases env path uptoken offset with hc | hc
  · rw [hc] at h
    simp at h
  · exact hc

theorem writeStream_error_returns_zero_witness :
    (WriteStream ⟨.err "boom", none, .ok [1, 2], none, none, none⟩ "p" "u" 0).2.isSome
        = true ∧
      (WriteStream ⟨.err "boom", none, .ok [1, 2], none, none, none⟩ "p" "u" 0).1 = 0 :=
  ⟨rfl, writeStream_error_returns_zero ⟨.err "boom", none, .ok [1, 2], none, none, none⟩
    "p" "u" 0 rfl⟩

end Qiniu
